import Mathlib

/-!
Shallow embedding of `bot.py` (Telegram stars bot for a forum thread).

Conventions:
* Python strings are Lean `String`s; scanning works on `String.data`
  (`List Char`).
* Python `re` matching for the three fixed patterns of
  `TelegramLinkExtractor.extract` is hand-compiled to recursive-descent
  matchers over `List Char`.  For these particular patterns ordered
  alternation plus greedy character classes is equivalent to Python's
  backtracking search, because every character class is disjoint from the
  literal that follows it.
* `re.findall` scans left to right, non-overlapping, advancing one
  character after a failed position; `findTargets` does the same with an
  explicit fuel equal to the text length (every successful match consumes
  at least one character).
* Python `set` values are modelled as duplicate-free lists in first
  occurrence order; set-comprehension deduplication is `List.dedup`.
-/

namespace TelegramLinkExtractor

/-- The character class `[a-zA-Z0-9_]` of the extraction patterns. -/
def isWordChar (c : Char) : Bool := c.isAlphanum || c = '_'

/-- Case-insensitive literal match (the `re.I` flag of `extract`):
consumes `lit` from the front of `s`, returns the rest on success. -/
def lcMatch : List Char → List Char → Option (List Char)
  | [], s => some s
  | _ :: _, [] => none
  | p :: ps, c :: cs => if c.toLower = p.toLower then lcMatch ps cs else none

/-- The capture group of patterns 1 and 2: `[a-zA-Z0-9_]+(?:/\d+)?`,
kept structured as channel characters plus optional message-id digits. -/
structure LinkTarget where
  channel : List Char
  msgId : Option (List Char)
deriving DecidableEq

/-- Render the capture group back to its matched text. -/
def LinkTarget.render (t : LinkTarget) : List Char :=
  t.channel ++ (match t.msgId with | none => [] | some ds => '/' :: ds)

/-- Match `/\d+` at the front (greedy), the slash-and-digits part of the
capture groups; `none` when there is no slash or no digit after it. -/
def slashDigits : List Char → Option (List Char × List Char)
  | [] => none
  | c :: r2 =>
    if c = '/' then
      if (r2.takeWhile Char.isDigit).isEmpty then none
      else some (r2.takeWhile Char.isDigit, r2.dropWhile Char.isDigit)
    else none

/-- Match `[a-zA-Z0-9_]+(?:/\d+)?` at the front of `s` (greedy), returning
the structured group and the unconsumed rest. -/
def matchTarget (s : List Char) : Option (LinkTarget × List Char) :=
  if (s.takeWhile isWordChar).isEmpty then none
  else
    match slashDigits (s.dropWhile isWordChar) with
    | some (ds, r2) => some (⟨s.takeWhile isWordChar, some ds⟩, r2)
    | none => some (⟨s.takeWhile isWordChar, none⟩, s.dropWhile isWordChar)

/-- The optional scheme letter of `https?`: greedily consume an `s`. -/
def schemeTail (s1 : List Char) : List Char :=
  match s1 with
  | c :: cs => if c.toLower = 's' then cs else s1
  | [] => s1

/-- The optional `(?:www\.)?` part: greedily consume `www.`. -/
def wwwTail (s3 : List Char) : List Char :=
  match lcMatch "www.".data s3 with
  | some s4 => s4
  | none => s3

/-- The host alternation `(?:t\.me|telegram\.me)/`: ordered trial, which
is faithful because the alternatives diverge at their second character. -/
def hostTail (s4 : List Char) : Option (List Char) :=
  match lcMatch "t.me/".data s4 with
  | some s5 => some s5
  | none => lcMatch "telegram.me/".data s4

/-- Pattern 1 of `extract` at one position: the web-link form. -/
def matchWebLink (s : List Char) : Option (LinkTarget × List Char) :=
  match lcMatch "http".data s with
  | none => none
  | some s1 =>
    match lcMatch "://".data (schemeTail s1) with
    | none => none
    | some s3 =>
      match hostTail (wwwTail s3) with
      | none => none
      | some s6 => matchTarget s6

/-- Pattern 2 of `extract` at one position: the bracketed media-embed tag. -/
def matchMediaTag (s : List Char) : Option (LinkTarget × List Char) :=
  match lcMatch "[MEDIA=telegram]".data s with
  | none => none
  | some s1 =>
    match matchTarget s1 with
    | none => none
    | some (t, r) =>
      match lcMatch "[/MEDIA]".data r with
      | none => none
      | some s2 => some (t, s2)

/-- Pattern 3 of `extract` at one position: the HTML data-attribute form,
whose group requires the `/digits` part. -/
def matchDataAttr (s : List Char) : Option (LinkTarget × List Char) :=
  match lcMatch "data-telegram-post=\"".data s with
  | none => none
  | some s1 =>
    if (s1.takeWhile isWordChar).isEmpty then none
    else
      match slashDigits (s1.dropWhile isWordChar) with
      | none => none
      | some (ds, r2) =>
        match lcMatch "\"".data r2 with
        | none => none
        | some s3 => some (⟨s1.takeWhile isWordChar, some ds⟩, s3)

/-- Model of `re.findall`: left-to-right non-overlapping scan with matcher `m`;
fuel is instantiated with the text length, which suffices because each
step either advances one character or skips a non-empty match. -/
def findTargets (m : List Char → Option (LinkTarget × List Char)) :
    Nat → List Char → List LinkTarget
  | 0, _ => []
  | _ + 1, [] => []
  | fuel + 1, c :: cs =>
    match m (c :: cs) with
    | some (t, r) => t :: findTargets m fuel r
    | none => findTargets m fuel cs

/-- Embeds `TelegramLinkExtractor.extract` (bot.py lines 227-235): all matches of
the three patterns, canonicalised and set-deduplicated. -/
def extract (text : String) : List String :=
  let s := text.data
  let ts := findTargets matchWebLink s.length s
      ++ findTargets matchMediaTag s.length s
      ++ findTargets matchDataAttr s.length s
  (ts.map fun t => "https://t.me/" ++ String.mk t.render).dedup

/-- Value of a digit string, as `int(...)` computes it on `\d+`. -/
def digitsVal (ds : List Char) : Nat :=
  ds.foldl (fun n c => n * 10 + (c.toNat - '0'.toNat)) 0

/-- The character class `[^/]` of the parse pattern. -/
def notSlash (c : Char) : Bool := c ≠ '/'

/-- The parse pattern `t\.me/([^/]+)(?:/(\d+))?` applied at one position
(case-sensitive: `parse` has no `re.I`). -/
def parseAt : List Char → Option (List Char × Option Nat)
  | 't' :: '.' :: 'm' :: 'e' :: '/' :: rest =>
    let chan := rest.takeWhile notSlash
    if chan.isEmpty then none
    else
      match rest.dropWhile notSlash with
      | '/' :: r2 =>
        let ds := r2.takeWhile Char.isDigit
        if ds.isEmpty then some (chan, none) else some (chan, some (digitsVal ds))
      | _ => some (chan, none)
  | _ => none

/-- Model of `re.search` for the parse pattern: first position where it matches. -/
def searchTme : List Char → Option (List Char × Option Nat)
  | [] => none
  | c :: cs =>
    match parseAt (c :: cs) with
    | some r => some r
    | none => searchTme cs

/-- Embeds `TelegramLinkExtractor.parse` (bot.py lines 237-244). -/
def parse (link : String) : Option (String × Option Nat) :=
  (searchTme link.data).map fun p => (String.mk p.1, p.2)

/-- Shape invariant of every capture group the three patterns can
produce: a non-empty word-character channel and, when present, a
non-empty digit string as message id. -/
def LinkTarget.WF (t : LinkTarget) : Prop :=
  t.channel ≠ [] ∧ (∀ c ∈ t.channel, isWordChar c = true) ∧
    ∀ ds, t.msgId = some ds → ds ≠ [] ∧ ∀ c ∈ ds, c.isDigit = true

end TelegramLinkExtractor

/-!
## Processed-post ledger (`ProcessedPostsManager`, bot.py lines 111-137)

The backing file is modelled abstractly: it is either missing, is present
but does not decode as JSON, or holds a JSON list of identifiers.  The
Python `set` of post ids is a duplicate-free list in insertion order.
-/

/-- State of the `processed_posts` file as seen by `json.load`. -/
inductive FileState where
  | missing
  | corrupt
  | json (ids : List Nat)
deriving DecidableEq

/-- Python `set.add`: append the element unless it is already present. -/
def setAdd (l : List Nat) (id : Nat) : List Nat :=
  if id ∈ l then l else l ++ [id]

structure ProcessedPostsManager where
  processed_posts : List Nat
deriving DecidableEq

namespace ProcessedPostsManager

/-- Embeds `ProcessedPostsManager._load`: `set(json.load(f))`, with a missing file
or a JSON decode error giving the empty set. -/
def _load : FileState → List Nat
  | .missing => []
  | .corrupt => []
  | .json ids => ids.dedup

/-- Embeds `ProcessedPostsManager._save`: `json.dump(list(self.processed_posts))`. -/
def _save (m : ProcessedPostsManager) : FileState :=
  .json m.processed_posts

/-- Embeds `ProcessedPostsManager.is_processed`. -/
def is_processed (m : ProcessedPostsManager) (post_id : Nat) : Bool :=
  post_id ∈ m.processed_posts

/-- Embeds `ProcessedPostsManager.mark_processed`: add then save; the pair is the
new in-memory state and the file written by the save. -/
def mark_processed (m : ProcessedPostsManager) (post_id : Nat) :
    ProcessedPostsManager × FileState :=
  let m2 : ProcessedPostsManager := ⟨setAdd m.processed_posts post_id⟩
  (m2, m2._save)

/-- Embeds `ProcessedPostsManager.add_existing_posts` (the spec's `bulk_add`):
add every id, then save once. -/
def add_existing_posts (m : ProcessedPostsManager) (post_ids : List Nat) :
    ProcessedPostsManager × FileState :=
  let m2 : ProcessedPostsManager := ⟨post_ids.foldl setAdd m.processed_posts⟩
  (m2, m2._save)

end ProcessedPostsManager

/-- A mutation of the ledger, for quantifying over histories of calls. -/
inductive LedgerOp where
  | mark (id : Nat)
  | bulk (ids : List Nat)

/-- Effect of one ledger mutation on the in-memory set. -/
def applyOp (l : List Nat) : LedgerOp → List Nat
  | .mark id => setAdd l id
  | .bulk ids => ids.foldl setAdd l

/-- Effect of a history of ledger mutations, oldest first. -/
def applyOps (l : List Nat) (ops : List LedgerOp) : List Nat :=
  ops.foldl applyOp l

/-- Whether a ledger mutation passes `id` to the ledger. -/
def mentionsId (id : Nat) : LedgerOp → Bool
  | .mark i => i = id
  | .bulk ids => id ∈ ids

/-!
## Configuration (`Config.__getattr__`, bot.py lines 106-109)
-/

/-- A JSON-ish Python value stored in `_config_data` (or `None`). -/
inductive PyValue where
  | pyNone
  | bool (b : Bool)
  | int (n : Int)
  | str (s : String)
  | strList (l : List String)
deriving DecidableEq

structure Config where
  cli_thread_id : Option String
  config_data : List (String × PyValue)

namespace Config

/-- Python `dict.get` on `_config_data` without the default. -/
def lookupKey (d : List (String × PyValue)) (k : String) : Option PyValue :=
  (d.find? fun p => p.1 = k).map (·.2)

/-- Truthiness of `self.cli_thread_id` (a missing or empty string is falsy). -/
def cliTruthy (c : Config) : Bool :=
  match c.cli_thread_id with
  | some s => s ≠ ""
  | none => false

/-- Embeds `Config.__getattr__` for an option name: the command-line thread id
wins for `forum_thread_id` when truthy, otherwise the stored value, with
default `True` for `skip_posts_with_comments` and `None` otherwise. -/
def getattr (c : Config) (name : String) : PyValue :=
  if name = "forum_thread_id" && c.cliTruthy then
    .str (c.cli_thread_id.getD "")
  else
    match lookupKey c.config_data name with
    | some v => v
    | none => if name = "skip_posts_with_comments" then .bool true else .pyNone

end Config

/-!
## Reaction sender (`TelegramStarsBot.send_stars_reaction`,
bot.py lines 267-297)

The Pyrogram client is modelled by: whether `send_paid_reaction` exists,
the newest message of the channel history (used when `message_id` is
`None`), and the outcome of the `attempt`-th `send_paid_reaction` call.
The result records the returned boolean, the number of
`send_paid_reaction` calls made, and the list of sleep durations in
chronological order.
-/

/-- Outcome of one `send_paid_reaction` call. -/
inductive CallOutcome where
  | success
  | floodWait (x : Nat)
  | generic
deriving DecidableEq

structure SendEnv where
  hasPaidReaction : Bool
  latestMessage : Option Nat
  outcomes : Nat → CallOutcome

/-- The `for attempt in range(max_retries)` loop of `send_stars_reaction`,
with `remaining = max_retries - attempt` iterations left.  A `FloodWait`
sleeps `x + 2` and the loop moves to the next `attempt`; a generic
exception sleeps `3 * (attempt + 1)` unless this was the last attempt. -/
def sendAttemptLoop (env : SendEnv) (maxRetries : Nat) (msgId : Option Nat)
    (attempt : Nat) : Nat → Bool × Nat × List Nat
  | 0 => (false, attempt, [])
  | remaining + 1 =>
    let resolved : Option Nat :=
      match msgId with
      | some m => some m
      | none => env.latestMessage
    match resolved with
    | none => (false, attempt, [])
    | some m =>
      match env.outcomes attempt with
      | .success => (true, attempt + 1, [])
      | .floodWait x =>
        let r := sendAttemptLoop env maxRetries (some m) (attempt + 1) remaining
        (r.1, r.2.1, (x + 2) :: r.2.2)
      | .generic =>
        let r := sendAttemptLoop env maxRetries (some m) (attempt + 1) remaining
        if attempt < maxRetries - 1 then (r.1, r.2.1, (3 * (attempt + 1)) :: r.2.2)
        else r

/-- Embeds `TelegramStarsBot.send_stars_reaction`: capability check, then the
bounded retry loop. -/
def send_stars_reaction (env : SendEnv) (maxRetries : Nat)
    (msgId : Option Nat) : Bool × Nat × List Nat :=
  if env.hasPaidReaction then sendAttemptLoop env maxRetries msgId 0 maxRetries
  else (false, 0, [])

/-!
## Post processor (`TelegramStarsBot._process_single_post`,
bot.py lines 299-345)

The externally visible behaviour is the trace of effects: reaction sends,
the optional forum comment, and `mark_processed` calls.
-/

/-- The fields of a fetched post that the processor reads. -/
structure ProcPost where
  post_id : Option Nat
  poster_user_id : Option Nat
  post_body_html : Option String
  post_body : Option String

/-- Collaborator responses during the processing of one post. -/
structure ProcEnv where
  hasComments : Bool
  reactOk : String → Option Nat → Bool
  chooseTemplate : List String → String

/-- The configuration options the processor reads. -/
structure ProcCfg where
  skip_posts_with_comments : Bool
  enable_reply : Bool
  reply_templates : List String

/-- Observable effects of processing one post, in order. -/
inductive Effect where
  | markProcessed (post_id : Nat)
  | sendReaction (channel : String) (msgId : Option Nat)
  | createComment (post_id : Nat) (body : String)
deriving DecidableEq

def Effect.isMark : Effect → Bool
  | .markProcessed _ => true
  | _ => false

def Effect.isComment : Effect → Bool
  | .createComment _ _ => true
  | _ => false

/-- Evaluates `post.get('post_body_html') or post.get('post_body')`, then the
falsiness check on the result (`None` or the empty string). -/
def contentOf (post : ProcPost) : Option String :=
  let c := match post.post_body_html with
    | some s => if s = "" then post.post_body else some s
    | none => post.post_body
  match c with
  | some s => if s = "" then none else some s
  | none => none

/-- The at-mention wrapper put around the reply when the post has a truthy
author id. -/
def wrapUserids (uid : Nat) (msg : String) : String :=
  "[userids=" ++ toString uid ++ ";align=left]" ++ msg ++ "[/userids]"

/-- Embeds `TelegramStarsBot._process_single_post` as an effect trace.  Mirrors
the source order: dedupe check, comment-skip check, content check, link
extraction, one reaction send per parseable link, optional reply, final
`mark_processed`. -/
def _process_single_post (cfg : ProcCfg) (processed : List Nat)
    (env : ProcEnv) (post : ProcPost) : List Effect :=
  match post.post_id with
  | none => []
  | some pid =>
    if pid = 0 then []
    else if pid ∈ processed then []
    else if cfg.skip_posts_with_comments && env.hasComments then
      [.markProcessed pid]
    else
      match contentOf post with
      | none => [.markProcessed pid]
      | some content =>
        let links := TelegramLinkExtractor.extract content
        if links.isEmpty then [.markProcessed pid]
        else
          let parsed := links.filterMap TelegramLinkExtractor.parse
          let sends := parsed.map fun p => Effect.sendReaction p.1 p.2
          let successes := (parsed.filter fun p => env.reactOk p.1 p.2).length
          let comments :=
            if 0 < successes && cfg.enable_reply then
              let tmpl := env.chooseTemplate cfg.reply_templates
              let msg := match post.poster_user_id with
                | some uid => if uid ≠ 0 then wrapUserids uid tmpl else tmpl
                | none => tmpl
              [Effect.createComment pid msg]
            else []
          sends ++ comments ++ [.markProcessed pid]

section BehaviourExamples
open TelegramLinkExtractor
example : extract "check https://t.me/foo/42" = ["https://t.me/foo/42"] := rfl
example : parse "https://t.me/foo/42" = some ("foo", some 42) := rfl
example :
    extract "https://t.me/foo/42 x [MEDIA=telegram]foo/42[/MEDIA] y data-telegram-post=\"foo/42\"" =
      ["https://t.me/foo/42"] := rfl
example : extract "see telegram.me/abc" = [] := rfl
example : extract "see http://telegram.me/abc" = ["https://t.me/abc"] := rfl
example : extract "HTTPS://WWW.T.ME/FOO/42" = ["https://t.me/FOO/42"] := rfl
example : parse "https://t.me/abc" = some ("abc", none) := rfl
example :
    send_stars_reaction ⟨true, none, fun _ => .generic⟩ 3 (some 1) =
      (false, 3, [3, 6]) := rfl
example :
    send_stars_reaction ⟨true, none, fun n => if n = 0 then .floodWait 5 else .success⟩ 1
      (some 10) = (false, 1, [7]) := rfl
example :
    _process_single_post ⟨true, true, ["done"]⟩ [] ⟨false, fun _ _ => false, fun l => l.headD ""⟩
      ⟨some 7, some 9, some "check https://t.me/foo/42", none⟩ =
      [.sendReaction "foo" (some 42), .markProcessed 7] := rfl
example :
    _process_single_post ⟨true, true, ["done"]⟩ [] ⟨false, fun _ _ => true, fun l => l.headD ""⟩
      ⟨some 7, some 9, some "check https://t.me/foo/42", none⟩ =
      [.sendReaction "foo" (some 42),
       .createComment 7 "[userids=9;align=left]done[/userids]", .markProcessed 7] := rfl
end BehaviourExamples

/-!
## Lemmas about the ledger
-/

theorem mem_setAdd {l : List Nat} {a x : Nat} : x ∈ setAdd l a ↔ x ∈ l ∨ x = a := by
  unfold setAdd
  split
  · next h =>
    constructor
    · exact Or.inl
    · rintro (hx | rfl)
      · exact hx
      · exact h
  · simp

theorem mem_foldl_setAdd {ids : List Nat} {l : List Nat} {x : Nat} :
    x ∈ ids.foldl setAdd l ↔ x ∈ l ∨ x ∈ ids := by
  induction ids generalizing l with
  | nil => simp
  | cons a as ih =>
    simp only [List.foldl_cons, ih, mem_setAdd, List.mem_cons]
    tauto

theorem not_mem_applyOps {ops : List LedgerOp} {id : Nat} (l : List Nat)
    (hl : id ∉ l) (h : ∀ op ∈ ops, mentionsId id op = false) :
    id ∉ applyOps l ops := by
  induction ops generalizing l with
  | nil => exact hl
  | cons op os ih =>
    refine ih (applyOp l op) ?_ fun o ho => h o (List.mem_cons_of_mem _ ho)
    have hop := h op (List.mem_cons_self _ _)
    cases op with
    | mark i =>
      have : i ≠ id := by simpa [mentionsId] using hop
      simp only [applyOp, mem_setAdd]
      rintro (hc | rfl)
      · exact hl hc
      · exact this rfl
    | bulk ids =>
      have : id ∉ ids := by simpa [mentionsId] using hop
      simp only [applyOp, mem_foldl_setAdd]
      rintro (hc | hc)
      · exact hl hc
      · exact this hc

/-!
## Claim theorems: ledger and configuration
-/

/-- Claim C4: an identifier never passed to `mark_processed` or to the bulk
add is not processed; immediately after either mutation it is processed,
and it stays processed in a fresh manager loaded from the file the
mutation saved. -/
theorem ledger_membership_after_ops (ops : List LedgerOp) (id : Nat)
    (h : ∀ op ∈ ops, mentionsId id op = false) :
    ProcessedPostsManager.is_processed ⟨applyOps [] ops⟩ id = false ∧
    (ProcessedPostsManager.mark_processed ⟨applyOps [] ops⟩ id).1.is_processed id = true ∧
    ProcessedPostsManager.is_processed
      ⟨ProcessedPostsManager._load (ProcessedPostsManager.mark_processed ⟨applyOps [] ops⟩ id).2⟩
      id = true ∧
    (ProcessedPostsManager.add_existing_posts ⟨applyOps [] ops⟩ [id]).1.is_processed id = true ∧
    ProcessedPostsManager.is_processed
      ⟨ProcessedPostsManager._load
        (ProcessedPostsManager.add_existing_posts ⟨applyOps [] ops⟩ [id]).2⟩
      id = true := by
  have hnot : id ∉ applyOps [] ops := not_mem_applyOps [] (by simp) h
  have hmem : id ∈ setAdd (applyOps [] ops) id := mem_setAdd.mpr (Or.inr rfl)
  refine ⟨?_, ?_, ?_, ?_, ?_⟩
  · simpa [ProcessedPostsManager.is_processed] using hnot
  · simpa [ProcessedPostsManager.is_processed, ProcessedPostsManager.mark_processed] using hmem
  · simpa [ProcessedPostsManager.is_processed, ProcessedPostsManager.mark_processed,
      ProcessedPostsManager._save, ProcessedPostsManager._load, List.mem_dedup] using hmem
  · simpa [ProcessedPostsManager.is_processed, ProcessedPostsManager.add_existing_posts] using hmem
  · simpa [ProcessedPostsManager.is_processed, ProcessedPostsManager.add_existing_posts,
      ProcessedPostsManager._save, ProcessedPostsManager._load, List.mem_dedup] using hmem

/-- Witness for C4: history `[mark 1, bulk [2, 3]]` never mentions `5`. -/
theorem ledger_membership_after_ops_witness :
    ProcessedPostsManager.is_processed ⟨applyOps [] [.mark 1, .bulk [2, 3]]⟩ 5 = false ∧
    (ProcessedPostsManager.mark_processed ⟨applyOps [] [.mark 1, .bulk [2, 3]]⟩ 5).1.is_processed
      5 = true ∧
    ProcessedPostsManager.is_processed
      ⟨ProcessedPostsManager._load
        (ProcessedPostsManager.mark_processed ⟨applyOps [] [.mark 1, .bulk [2, 3]]⟩ 5).2⟩
      5 = true ∧
    (ProcessedPostsManager.add_existing_posts ⟨applyOps [] [.mark 1, .bulk [2, 3]]⟩
      [5]).1.is_processed 5 = true ∧
    ProcessedPostsManager.is_processed
      ⟨ProcessedPostsManager._load
        (ProcessedPostsManager.add_existing_posts ⟨applyOps [] [.mark 1, .bulk [2, 3]]⟩ [5]).2⟩
      5 = true :=
  ledger_membership_after_ops [.mark 1, .bulk [2, 3]] 5 (by decide)

/-- Claim C5: `mark_processed` on an already-present identifier changes
neither the in-memory set nor the file contents written by the save. -/
theorem mark_processed_idempotent (m : ProcessedPostsManager) (id : Nat)
    (h : m.is_processed id = true) :
    m.mark_processed id = (m, FileState.json m.processed_posts) := by
  have hid : id ∈ m.processed_posts := by
    simpa [ProcessedPostsManager.is_processed] using h
  simp [ProcessedPostsManager.mark_processed, ProcessedPostsManager._save, setAdd, hid]

/-- Witness for C5: the spec's example ledger `[1, 2, 3]` and a repeated
`mark_processed 2`. -/
theorem mark_processed_idempotent_witness :
    ProcessedPostsManager.mark_processed ⟨[1, 2, 3]⟩ 2 =
      (⟨[1, 2, 3]⟩, FileState.json [1, 2, 3]) :=
  mark_processed_idempotent ⟨[1, 2, 3]⟩ 2 (by decide)

/-- Claim C7: loading from a missing file or from one whose contents do not
decode as JSON yields the empty ledger, on which nothing is processed. -/
theorem load_failure_empty_ledger :
    ProcessedPostsManager._load FileState.missing = [] ∧
    ProcessedPostsManager._load FileState.corrupt = [] ∧
    ∀ id : Nat,
      ProcessedPostsManager.is_processed ⟨ProcessedPostsManager._load FileState.missing⟩ id =
        false ∧
      ProcessedPostsManager.is_processed ⟨ProcessedPostsManager._load FileState.corrupt⟩ id =
        false :=
  ⟨rfl, rfl, fun id => by
    simp [ProcessedPostsManager.is_processed, ProcessedPostsManager._load]⟩

/-- Claim C8: both ledger mutations only grow the set of processed
identifiers; nothing is ever removed. -/
theorem ledger_monotone (m : ProcessedPostsManager) (id x : Nat) (ids : List Nat)
    (hx : x ∈ m.processed_posts) :
    x ∈ (m.mark_processed id).1.processed_posts ∧
    x ∈ (m.add_existing_posts ids).1.processed_posts :=
  ⟨by simpa [ProcessedPostsManager.mark_processed] using mem_setAdd.mpr (Or.inl hx),
   by simpa [ProcessedPostsManager.add_existing_posts] using mem_foldl_setAdd.mpr (Or.inl hx)⟩

/-- Witness for C8 at the ledger `[1]`, marking `2` and bulk-adding `[3, 4]`. -/
theorem ledger_monotone_witness :
    1 ∈ (ProcessedPostsManager.mark_processed ⟨[1]⟩ 2).1.processed_posts ∧
    1 ∈ (ProcessedPostsManager.add_existing_posts ⟨[1]⟩ [3, 4]).1.processed_posts :=
  ledger_monotone ⟨[1]⟩ 2 1 [3, 4] (by decide)

/-- Claim C10: attribute lookup for an option name absent from the loaded
configuration data returns `None`, except `skip_posts_with_comments`
(defaults to `True`) and `forum_thread_id` (overridden by a truthy
command-line thread id; `None` when no command-line id was supplied). -/
theorem config_getattr_defaults (c : Config) (name : String)
    (habsent : Config.lookupKey c.config_data name = none) :
    (name ≠ "forum_thread_id" → name ≠ "skip_posts_with_comments" →
      c.getattr name = .pyNone) ∧
    (name = "skip_posts_with_comments" → c.getattr name = .bool true) ∧
    (name = "forum_thread_id" → ∀ tid, c.cli_thread_id = some tid → tid ≠ "" →
      c.getattr name = .str tid) ∧
    (name = "forum_thread_id" → c.cli_thread_id = none → c.getattr name = .pyNone) := by
  refine ⟨fun h1 h2 => ?_, fun h => ?_, fun h tid htid hne => ?_, fun h hcli => ?_⟩
  · simp [Config.getattr, habsent, h1, h2]
  · subst h
    simp [Config.getattr, habsent]
  · subst h
    simp [Config.getattr, Config.cliTruthy, habsent, htid, hne]
  · subst h
    simp [Config.getattr, Config.cliTruthy, habsent, hcli]

/-- Witness for C10: a configuration with a command-line thread id and a
data table not containing the probed names. -/
theorem config_getattr_defaults_witness :
    (("check_interval" : String) ≠ "forum_thread_id" →
      ("check_interval" : String) ≠ "skip_posts_with_comments" →
      Config.getattr ⟨some "99", [("api_id", .str "x")]⟩ "check_interval" = .pyNone) ∧
    (("check_interval" : String) = "skip_posts_with_comments" →
      Config.getattr ⟨some "99", [("api_id", .str "x")]⟩ "check_interval" = .bool true) ∧
    (("check_interval" : String) = "forum_thread_id" →
      ∀ tid, (Config.mk (some "99") [("api_id", .str "x")]).cli_thread_id = some tid →
        tid ≠ "" →
        Config.getattr ⟨some "99", [("api_id", .str "x")]⟩ "check_interval" = .str tid) ∧
    (("check_interval" : String) = "forum_thread_id" →
      (Config.mk (some "99") [("api_id", .str "x")]).cli_thread_id = none →
      Config.getattr ⟨some "99", [("api_id", .str "x")]⟩ "check_interval" = .pyNone) :=
  config_getattr_defaults ⟨some "99", [("api_id", .str "x")]⟩ "check_interval" (by decide)

/-!
## Lemmas about the retry loop of the reaction sender
-/

theorem sendAttemptLoop_success {env : SendEnv} {a : Nat} (mr m r : Nat)
    (h : env.outcomes a = .success) :
    sendAttemptLoop env mr (some m) a (r + 1) = (true, a + 1, []) := by
  simp [sendAttemptLoop, h]

theorem sendAttemptLoop_flood {env : SendEnv} {a x : Nat} (mr m r : Nat)
    (h : env.outcomes a = .floodWait x) :
    sendAttemptLoop env mr (some m) a (r + 1) =
      ((sendAttemptLoop env mr (some m) (a + 1) r).1,
       (sendAttemptLoop env mr (some m) (a + 1) r).2.1,
       (x + 2) :: (sendAttemptLoop env mr (some m) (a + 1) r).2.2) := by
  simp [sendAttemptLoop, h]

theorem sendAttemptLoop_generic {env : SendEnv} {a : Nat} (mr m r : Nat)
    (h : env.outcomes a = .generic) :
    sendAttemptLoop env mr (some m) a (r + 1) =
      if a < mr - 1 then
        ((sendAttemptLoop env mr (some m) (a + 1) r).1,
         (sendAttemptLoop env mr (some m) (a + 1) r).2.1,
         (3 * (a + 1)) :: (sendAttemptLoop env mr (some m) (a + 1) r).2.2)
      else sendAttemptLoop env mr (some m) (a + 1) r := by
  simp [sendAttemptLoop, h]

/-!
## Claim theorems: reaction sender
-/

/-- Counterexample to claim C1 as stated: with `max_retries = 1`, a client
that raises a flood-control signal on the first call and would succeed on
a second call, the sender returns failure after exactly one call (having
slept the signalled 5 plus the margin 2).  If the flood-control retry did
not consume the single retry slot, this run would have succeeded. -/
theorem send_stars_reaction_floodwait_consumes_slot_cex :
    send_stars_reaction
        ⟨true, none, fun n => if n = 0 then CallOutcome.floodWait 5 else .success⟩ 1
        (some 10) = (false, 1, [7]) := rfl

/-- Claim C1 (amended): on a flood-control signal carrying wait `x` the
sender sleeps `x + 2` seconds and retries, but the retry consumes one of
the `max_retries` slots exactly as a generic failure does; a generic
failure consumes a slot with linear backoff `3 * attempt_number` between
attempts. -/
theorem send_stars_reaction_floodwait_amended (x m : Nat) (env env2 : SendEnv)
    (hcap : env.hasPaidReaction = true) (h0 : env.outcomes 0 = .floodWait x)
    (h1 : env.outcomes 1 = .success)
    (hcap2 : env2.hasPaidReaction = true) (g0 : env2.outcomes 0 = .generic)
    (g1 : env2.outcomes 1 = .success) :
    send_stars_reaction env 1 (some m) = (false, 1, [x + 2]) ∧
    send_stars_reaction env 2 (some m) = (true, 2, [x + 2]) ∧
    send_stars_reaction env2 2 (some m) = (true, 2, [3]) := by
  refine ⟨?_, ?_, ?_⟩
  · rw [send_stars_reaction, if_pos hcap,
      show (1 : Nat) = 0 + 1 from rfl, sendAttemptLoop_flood 1 m 0 h0]
    rfl
  · rw [send_stars_reaction, if_pos hcap,
      show (2 : Nat) = 1 + 1 from rfl, sendAttemptLoop_flood 2 m 1 h0,
      show (1 : Nat) = 0 + 1 from rfl, sendAttemptLoop_success 2 m 0 h1]
  · rw [send_stars_reaction, if_pos hcap2,
      show (2 : Nat) = 1 + 1 from rfl, sendAttemptLoop_generic 2 m 1 g0,
      show (1 : Nat) = 0 + 1 from rfl, sendAttemptLoop_success 2 m 0 g1]
    norm_num

/-- Witness for the amended C1, with the flood wait 5 and concrete clients. -/
theorem send_stars_reaction_floodwait_amended_witness :
    send_stars_reaction
        ⟨true, none, fun n => if n = 0 then CallOutcome.floodWait 5 else .success⟩ 1
        (some 10) = (false, 1, [5 + 2]) ∧
    send_stars_reaction
        ⟨true, none, fun n => if n = 0 then CallOutcome.floodWait 5 else .success⟩ 2
        (some 10) = (true, 2, [5 + 2]) ∧
    send_stars_reaction
        ⟨true, none, fun n => if n = 0 then CallOutcome.generic else .success⟩ 2
        (some 10) = (true, 2, [3]) :=
  send_stars_reaction_floodwait_amended 5 10
    ⟨true, none, fun n => if n = 0 then CallOutcome.floodWait 5 else .success⟩
    ⟨true, none, fun n => if n = 0 then CallOutcome.generic else .success⟩
    rfl rfl rfl rfl rfl rfl

/-- Claim C3: with the retry cap 3 and a client failing every call with a
generic exception, the paid-reaction call is made exactly 3 times, the
sender returns failure, and the two inter-attempt backoffs are linear. -/
theorem send_stars_reaction_three_generic_failures (env : SendEnv) (m : Nat)
    (hcap : env.hasPaidReaction = true)
    (hfail : ∀ n, env.outcomes n = .generic) :
    send_stars_reaction env 3 (some m) = (false, 3, [3, 6]) := by
  obtain ⟨hp, lm, oc⟩ := env
  have : oc = fun _ => CallOutcome.generic := funext hfail
  subst this
  cases hcap
  rfl

/-- Witness for C3 at a concrete always-failing client. -/
theorem send_stars_reaction_three_generic_failures_witness :
    send_stars_reaction ⟨true, none, fun _ => .generic⟩ 3 (some 1) = (false, 3, [3, 6]) :=
  send_stars_reaction_three_generic_failures ⟨true, none, fun _ => .generic⟩ 1 rfl
    fun _ => rfl

/-!
## Claim theorems: post processor
-/

/-- Claim C2: a post that passes the dedupe, comment-skip and content
checks and yields extracted links, but whose every reaction send fails,
still produces exactly one `mark_processed` call, as the final effect, and
no forum comment — whatever `enable_reply` is. -/
theorem process_single_post_all_reactions_fail
    (cfg : ProcCfg) (processed : List Nat) (env : ProcEnv) (post : ProcPost)
    (pid : Nat) (content : String)
    (hpid : post.post_id = some pid) (hpos : pid ≠ 0) (hnew : pid ∉ processed)
    (hskip : (cfg.skip_posts_with_comments && env.hasComments) = false)
    (hcontent : contentOf post = some content)
    (hlinks : (TelegramLinkExtractor.extract content).isEmpty = false)
    (hfail : ∀ c mi, env.reactOk c mi = false) :
    (_process_single_post cfg processed env post).countP Effect.isMark = 1 ∧
    (_process_single_post cfg processed env post).countP Effect.isComment = 0 ∧
    (_process_single_post cfg processed env post).getLast? =
      some (Effect.markProcessed pid) := by
  have hbody :
      _process_single_post cfg processed env post =
        ((TelegramLinkExtractor.extract content).filterMap TelegramLinkExtractor.parse).map
            (fun p => Effect.sendReaction p.1 p.2) ++
          [Effect.markProcessed pid] := by
    unfold _process_single_post
    rw [hpid]
    simp only [hpos, if_false, hnew, hskip, hcontent, hlinks, Bool.false_eq_true,
      ite_false, if_neg hnew]
    simp [hfail]
  rw [hbody]
  refine ⟨?_, ?_, List.getLast?_concat _⟩
  · rw [List.countP_append, List.countP_map]
    simp [Function.comp_def, Effect.isMark, List.countP_cons]
  · rw [List.countP_append, List.countP_map]
    simp [Function.comp_def, Effect.isComment, List.countP_cons]

/-- Witness for C2: a post with one extracted link, replying enabled, and
an always-failing reaction client. -/
theorem process_single_post_all_reactions_fail_witness :
    (_process_single_post ⟨true, true, ["done"]⟩ []
        ⟨false, fun _ _ => false, fun l => l.headD ""⟩
        ⟨some 7, some 9, some "check https://t.me/foo/42", none⟩).countP Effect.isMark = 1 ∧
    (_process_single_post ⟨true, true, ["done"]⟩ []
        ⟨false, fun _ _ => false, fun l => l.headD ""⟩
        ⟨some 7, some 9, some "check https://t.me/foo/42", none⟩).countP Effect.isComment = 0 ∧
    (_process_single_post ⟨true, true, ["done"]⟩ []
        ⟨false, fun _ _ => false, fun l => l.headD ""⟩
        ⟨some 7, some 9, some "check https://t.me/foo/42", none⟩).getLast? =
      some (Effect.markProcessed 7) :=
  process_single_post_all_reactions_fail ⟨true, true, ["done"]⟩ []
    ⟨false, fun _ _ => false, fun l => l.headD ""⟩
    ⟨some 7, some 9, some "check https://t.me/foo/42", none⟩ 7
    "check https://t.me/foo/42" rfl (by decide) (by decide) rfl rfl (by decide)
    fun _ _ => rfl

/-!
## Lemmas about the link extractor
-/

namespace TelegramLinkExtractor

theorem takeWhile_all {α : Type} (p : α → Bool) (xs : List α)
    (h : ∀ x ∈ xs, p x = true) : xs.takeWhile p = xs := by
  induction xs with
  | nil => rfl
  | cons a as ih =>
    rw [List.takeWhile_cons, h a (List.mem_cons_self a as)]
    exact congrArg (a :: ·) (ih fun x hx => h x (List.mem_cons_of_mem a hx))

theorem dropWhile_all {α : Type} (p : α → Bool) (xs : List α)
    (h : ∀ x ∈ xs, p x = true) : xs.dropWhile p = [] := by
  induction xs with
  | nil => rfl
  | cons a as ih =>
    rw [List.dropWhile_cons, h a (List.mem_cons_self a as)]
    exact if_pos rfl ▸ ih fun x hx => h x (List.mem_cons_of_mem a hx)

theorem takeWhile_append_stop {α : Type} (p : α → Bool) (xs : List α) (y : α)
    (ys : List α) (hall : ∀ x ∈ xs, p x = true) (hy : p y = false) :
    (xs ++ y :: ys).takeWhile p = xs ∧ (xs ++ y :: ys).dropWhile p = y :: ys := by
  induction xs with
  | nil => simp [List.takeWhile_cons, List.dropWhile_cons, hy]
  | cons a as ih =>
    have hpa := hall a (List.mem_cons_self a as)
    obtain ⟨h1, h2⟩ := ih fun x hx => hall x (List.mem_cons_of_mem a hx)
    simp [List.takeWhile_cons, List.dropWhile_cons, hpa, h1, h2]

theorem wordChar_notSlash {c : Char} (h : isWordChar c = true) : notSlash c = true := by
  rcases eq_or_ne c '/' with rfl | hne
  · exact absurd h (by decide)
  · simp [notSlash, hne]

theorem slashDigits_wf {rest ds r2 : List Char}
    (h : slashDigits rest = some (ds, r2)) :
    ds ≠ [] ∧ ∀ c ∈ ds, c.isDigit = true := by
  cases rest with
  | nil => simp [slashDigits] at h
  | cons c cs =>
    rw [slashDigits] at h
    by_cases hc : c = '/'
    · rw [if_pos hc] at h
      by_cases hds : (cs.takeWhile Char.isDigit).isEmpty
      · rw [if_pos hds] at h
        exact absurd h (by simp)
      · rw [if_neg hds] at h
        injection h with h1
        cases h1
        exact ⟨by simpa using hds, fun d hd => List.mem_takeWhile_imp hd⟩
    · rw [if_neg hc] at h
      exact absurd h (by simp)

theorem matchTarget_wf {s r : List Char} {t : LinkTarget}
    (h : matchTarget s = some (t, r)) : t.WF := by
  have hword : ∀ c ∈ s.takeWhile isWordChar, isWordChar c = true :=
    fun c hc => List.mem_takeWhile_imp hc
  unfold matchTarget at h
  by_cases hne : (s.takeWhile isWordChar).isEmpty
  · rw [if_pos hne] at h
    exact absurd h (by simp)
  · rw [if_neg hne] at h
    have hchan : s.takeWhile isWordChar ≠ [] := by simpa using hne
    cases hsd : slashDigits (s.dropWhile isWordChar) with
    | none =>
      rw [hsd] at h
      dsimp only at h
      cases h
      exact ⟨hchan, hword, fun ds hds => by cases hds⟩
    | some p =>
      obtain ⟨ds, r2⟩ := p
      rw [hsd] at h
      dsimp only at h
      cases h
      exact ⟨hchan, hword, fun ds' hds' => by cases hds'; exact slashDigits_wf hsd⟩

theorem matchWebLink_wf {s r : List Char} {t : LinkTarget}
    (h : matchWebLink s = some (t, r)) : t.WF := by
  unfold matchWebLink at h
  cases h1 : lcMatch "http".data s with
  | none => rw [h1] at h; simp at h
  | some s1 =>
    rw [h1] at h
    dsimp only at h
    cases h2 : lcMatch "://".data (schemeTail s1) with
    | none => rw [h2] at h; simp at h
    | some s3 =>
      rw [h2] at h
      dsimp only at h
      cases h3 : hostTail (wwwTail s3) with
      | none => rw [h3] at h; simp at h
      | some s6 =>
        rw [h3] at h
        exact matchTarget_wf h

theorem matchMediaTag_wf {s r : List Char} {t : LinkTarget}
    (h : matchMediaTag s = some (t, r)) : t.WF := by
  unfold matchMediaTag at h
  cases h1 : lcMatch "[MEDIA=telegram]".data s with
  | none => rw [h1] at h; simp at h
  | some s1 =>
    rw [h1] at h
    dsimp only at h
    cases h2 : matchTarget s1 with
    | none => rw [h2] at h; simp at h
    | some pr =>
      obtain ⟨t', r'⟩ := pr
      rw [h2] at h
      dsimp only at h
      cases h3 : lcMatch "[/MEDIA]".data r' with
      | none => rw [h3] at h; simp at h
      | some s2 =>
        rw [h3] at h
        dsimp only at h
        cases h
        exact matchTarget_wf h2

theorem matchDataAttr_wf {s r : List Char} {t : LinkTarget}
    (h : matchDataAttr s = some (t, r)) : t.WF := by
  unfold matchDataAttr at h
  cases h1 : lcMatch "data-telegram-post=\"".data s with
  | none => rw [h1] at h; simp at h
  | some s1 =>
    rw [h1] at h
    dsimp only at h
    by_cases hne : (s1.takeWhile isWordChar).isEmpty
    · rw [if_pos hne] at h
      exact absurd h (by simp)
    · rw [if_neg hne] at h
      cases h2 : slashDigits (s1.dropWhile isWordChar) with
      | none => rw [h2] at h; simp at h
      | some p =>
        obtain ⟨ds, r2⟩ := p
        rw [h2] at h
        dsimp only at h
        cases h3 : lcMatch "\"".data r2 with
        | none => rw [h3] at h; simp at h
        | some s3 =>
          rw [h3] at h
          dsimp only at h
          cases h
          exact ⟨by simpa using hne, fun c hc => List.mem_takeWhile_imp hc,
            fun ds' hds' => by cases hds'; exact slashDigits_wf h2⟩

theorem findTargets_wf {m : List Char → Option (LinkTarget × List Char)}
    (hm : ∀ s t r, m s = some (t, r) → t.WF) :
    ∀ fuel s, ∀ t ∈ findTargets m fuel s, t.WF := by
  intro fuel
  induction fuel with
  | zero => intro s t ht; simp [findTargets] at ht
  | succ n ih =>
    intro s t ht
    cases s with
    | nil => simp [findTargets] at ht
    | cons c cs =>
      rw [findTargets] at ht
      cases hmc : m (c :: cs) with
      | none =>
        rw [hmc] at ht
        exact ih cs t ht
      | some pr =>
        obtain ⟨t', r'⟩ := pr
        rw [hmc] at ht
        dsimp only at ht
        rcases List.mem_cons.mp ht with rfl | hmem
        · exact hm _ _ _ hmc
        · exact ih r' t hmem

theorem extract_mem {text link : String} (h : link ∈ extract text) :
    ∃ t : LinkTarget, t.WF ∧ link = "https://t.me/" ++ String.mk t.render := by
  unfold extract at h
  rw [List.mem_dedup] at h
  obtain ⟨t, ht, rfl⟩ := List.mem_map.mp h
  refine ⟨t, ?_, rfl⟩
  rcases List.mem_append.mp ht with h12 | h3
  · rcases List.mem_append.mp h12 with h1 | h2
    · exact findTargets_wf (fun _ _ _ => matchWebLink_wf) _ _ t h1
    · exact findTargets_wf (fun _ _ _ => matchMediaTag_wf) _ _ t h2
  · exact findTargets_wf (fun _ _ _ => matchDataAttr_wf) _ _ t h3

theorem parseAt_render (t : LinkTarget) (hwf : t.WF) :
    parseAt ('t' :: '.' :: 'm' :: 'e' :: '/' :: t.render) =
      some (t.channel, t.msgId.map digitsVal) := by
  obtain ⟨chan, msg⟩ := t
  obtain ⟨hne, hword, hmsg⟩ := hwf
  simp only at hne hword hmsg
  have hallNS : ∀ c ∈ chan, notSlash c = true :=
    fun c hc => wordChar_notSlash (hword c hc)
  obtain ⟨c0, cs0, hchan⟩ := List.exists_cons_of_ne_nil hne
  cases msg with
  | none =>
    simp only [LinkTarget.render, List.append_nil, parseAt]
    rw [takeWhile_all notSlash chan hallNS, dropWhile_all notSlash chan hallNS, hchan]
    simp
  | some ds =>
    obtain ⟨hds, hdig⟩ := hmsg ds rfl
    obtain ⟨d0, ds0, hds0⟩ := List.exists_cons_of_ne_nil hds
    obtain ⟨htw, hdw⟩ :=
      takeWhile_append_stop notSlash chan '/' ds hallNS (by decide)
    simp only [LinkTarget.render, parseAt]
    rw [htw, hdw, hchan]
    simp only [List.isEmpty_cons, Bool.false_eq_true, if_false]
    rw [takeWhile_all Char.isDigit ds hdig, hds0]
    simp

theorem parse_canonical (t : LinkTarget) (hwf : t.WF) :
    parse ("https://t.me/" ++ String.mk t.render) =
      some (String.mk t.channel, t.msgId.map digitsVal) := by
  rw [parse]
  have hsearch :
      searchTme (("https://t.me/" ++ String.mk t.render).data) =
        some (t.channel, t.msgId.map digitsVal) := by
    show searchTme ('t' :: '.' :: 'm' :: 'e' :: '/' :: t.render) = _
    rw [searchTme, parseAt_render t hwf]
  rw [hsearch]
  rfl

end TelegramLinkExtractor

/-!
## Claim theorems: link extractor
-/

/-- Claim C6: the three recognised shapes referencing the same channel and
message index extract to exactly one canonical link; the spec's example
body extracts exactly one link which parses to the pair; and extraction
output never contains duplicates (set semantics). -/
theorem extract_single_canonical_link :
    TelegramLinkExtractor.extract "check https://t.me/foo/42" = ["https://t.me/foo/42"] ∧
    TelegramLinkExtractor.parse "https://t.me/foo/42" = some ("foo", some 42) ∧
    TelegramLinkExtractor.extract
        "https://t.me/foo/42 [MEDIA=telegram]foo/42[/MEDIA] <div data-telegram-post=\"foo/42\">" =
      ["https://t.me/foo/42"] ∧
    ∀ text : String, (TelegramLinkExtractor.extract text).Nodup :=
  ⟨rfl, rfl, rfl, fun _ => List.nodup_dedup _⟩

/-- Claim C9: every link the extractor returns is canonical — it starts
with the normalized host prefix and the parse operation always succeeds
on it. -/
theorem extract_canonical_and_parseable (text link : String)
    (h : link ∈ TelegramLinkExtractor.extract text) :
    (∃ tail, link = "https://t.me/" ++ tail) ∧
    (TelegramLinkExtractor.parse link).isSome := by
  obtain ⟨t, hwf, rfl⟩ := TelegramLinkExtractor.extract_mem h
  exact ⟨⟨String.mk t.render, rfl⟩, by
    rw [TelegramLinkExtractor.parse_canonical t hwf]; rfl⟩

/-- Witness for C9: a body whose link uses the `telegram.me` host form and
no message index; the extractor still normalizes and parses it. -/
theorem extract_canonical_and_parseable_witness :
    ("https://t.me/abc" ∈ TelegramLinkExtractor.extract "see http://telegram.me/abc now") ∧
    ((∃ tail, ("https://t.me/abc" : String) = "https://t.me/" ++ tail) ∧
      (TelegramLinkExtractor.parse "https://t.me/abc").isSome) :=
  ⟨by decide, extract_canonical_and_parseable "see http://telegram.me/abc now"
    "https://t.me/abc" (by decide)⟩
